import Mathlib

/-!
Verification of the WebRTC signaling components of the repository.

The embedding below follows the two source files:

* `src/WebRTC/webrtc-signaling-server.js` — the relay server: a `clients`
  Map from client id to connection, the `handleMessage` dispatcher,
  `sendToClient`, `broadcast`, the connection handler (id generation and
  registration) and the close handler.
* `src/WebRTC/webrtc-complete-example.js` — the client-side
  `WebRTCManager` class: `createPeerConnection`, `handleOffer`,
  `handleAnswer`, `handleIceCandidate`, `handleSignalingMessage`.

JavaScript `Map` objects are modelled as association lists in insertion
order (`Map.set` replaces in place, `Map.delete` removes the entry,
iteration follows insertion order).  A connection's only observable used
by the relay is whether `readyState === OPEN`, modelled as a `Bool`.
Frames are records with the fields the code reads or writes; the object
spread `{...message, from: fromClientId}` is record update of the `from`
field (named `fromId`, since `from` is a reserved word in Lean).
-/

namespace Signaling

/-- Registry of connected clients: client id ↦ connection-open flag.
Models the `clients` Map of `webrtc-signaling-server.js` together with
`readyState === WebSocket.OPEN` of the stored socket. -/
abbrev Registry := List (String × Bool)

/-- `clients.set k v`: replace in place if the key is present, else append
(JavaScript Map insertion-order semantics). -/
def mapSet (k : String) (v : Bool) : Registry → Registry
  | [] => [(k, v)]
  | (k', v') :: rest =>
      if k' = k then (k, v) :: rest else (k', v') :: mapSet k v rest

/-- `clients.get k`: first entry with the key, if any. -/
def mapGet (k : String) : Registry → Option Bool
  | [] => none
  | (k', v') :: rest => if k' = k then some v' else mapGet k rest

/-- `clients.delete k`: remove the entry with the key (a Map holds at most
one entry per key; on such lists this removes the first occurrence). -/
def mapDelete (k : String) : Registry → Registry
  | [] => []
  | (k', v') :: rest =>
      if k' = k then rest else (k', v') :: mapDelete k rest

/-- A decoded wire frame: the fields the server code reads or writes.
`fromId` is the wire field `from` (a reserved word in Lean).  Absent JSON
fields are `none` / `[]` / `""`. -/
structure Frame where
  type : String
  toId : Option String := none
  fromId : Option String := none
  id : Option String := none
  peers : List String := []
  peerId : Option String := none
  body : String := ""
deriving DecidableEq

/-- `sendToClient(clientId, message)`: deliver iff the target is in the
Map and its connection is open; otherwise only a console warning, nothing
is sent to anyone.  Deliveries are (recipient, frame) pairs. -/
def sendToClient (clients : Registry) (clientId : String) (message : Frame) :
    List (String × Frame) :=
  match mapGet clientId clients with
  | some true => [(clientId, message)]
  | _ => []

/-- `broadcast(message, excludeClientId)`: send the frame unchanged to
every other client whose connection is open, in Map iteration order. -/
def broadcast (clients : Registry) (message : Frame) (excludeClientId : String) :
    List (String × Frame) :=
  (clients.filter (fun c => decide (c.1 ≠ excludeClientId) && c.2)).map
    (fun c => (c.1, message))

/-- The three `type` values that the `handleMessage` switch forwards. -/
def forwardTypes : List String := ["offer", "answer", "ice-candidate"]

/-- `handleMessage(fromClientId, message)`: the dispatch switch of the
server.  `offer`/`answer`/`ice-candidate` with a `to` field go through
`sendToClient` with `from` overwritten to the sender's relay-assigned id;
without `to` they are broadcast *unchanged*.  `join-room` only logs.
`list-peers` replies to the sender with a `peers-list` frame.  Any other
type only logs a warning. -/
def handleMessage (clients : Registry) (fromClientId : String) (message : Frame) :
    List (String × Frame) :=
  if message.type ∈ forwardTypes then
    match message.toId with
    | some target =>
        sendToClient clients target { message with fromId := some fromClientId }
    | none => broadcast clients message fromClientId
  else if message.type = "join-room" then []
  else if message.type = "list-peers" then
    sendToClient clients fromClientId
      { type := "peers-list"
        peers := (clients.map Prod.fst).filter (fun id => decide (id ≠ fromClientId)) }
  else []

/-- A raw inbound frame, before `JSON.parse`: either text that fails to
parse as JSON, or a parsed frame. -/
inductive RawFrame where
  | malformed
  | parsed (f : Frame)

/-- The `ws.on('message')` handler: `JSON.parse` inside `try` — on parse
failure the catch block only logs (no reply, registry untouched); on
success the frame goes to `handleMessage`.  Returns the registry after
the handler (unchanged) and the deliveries it produced. -/
def onWsMessage (clients : Registry) (clientId : String) (raw : RawFrame) :
    Registry × List (String × Frame) :=
  match raw with
  | .malformed => (clients, [])
  | .parsed f => (clients, handleMessage clients clientId f)

/-- The `ws.on('close')` handler: delete the client from the Map, then
broadcast a `peer-disconnected` frame naming it to everyone else. -/
def onWsClose (clients : Registry) (clientId : String) :
    Registry × List (String × Frame) :=
  let clients' := mapDelete clientId clients
  (clients', broadcast clients' { type := "peer-disconnected", peerId := some clientId }
    clientId)

/-- `generateClientId()`: concatenates
`Math.random().toString(36).substring(2, 15)` twice.  The two
`Math.random().toString(36)` results (strings of the shape `"0.…"` in
base 36) are taken as inputs; `substring(2, 15)` keeps the 13 characters
after the `"0."` prefix.  No uniqueness check of any kind. -/
def generateClientId (r1 r2 : String) : String :=
  (r1.drop 2).take 13 ++ (r2.drop 2).take 13

/-- The `wss.on('connection')` handler: generate an id from two random
draws, `clients.set` it (overwriting any entry with the same id), and
send the client its id.  Returns the new registry, the assigned id and
the `client-id` frame sent. -/
def onConnection (clients : Registry) (r1 r2 : String) :
    Registry × String × Frame :=
  let clientId := generateClientId r1 r2
  (mapSet clientId true clients, clientId, { type := "client-id", id := some clientId })

/-- Processing of a trace of inbound (sender, frame) events over a fixed
registry: the `ws.on('message')` handlers run each sender's frames in
arrival order, and each frame's deliveries are emitted while it is
processed. -/
def relayRun (clients : Registry) (events : List (String × Frame)) :
    List (String × Frame) :=
  events.flatMap (fun e => handleMessage clients e.1 e.2)

end Signaling

namespace Client

/-- A session description (the SDP body is opaque to the negotiation
code). -/
structure Desc where
  sdp : String
deriving DecidableEq

/-- The observable negotiation state of an `RTCPeerConnection` as driven
by `webrtc-complete-example.js`: the descriptions installed by
`setLocalDescription` / `setRemoteDescription`, and the candidates passed
to `addIceCandidate`, in call order. -/
structure PeerConnection where
  localDescription : Option Desc := none
  remoteDescription : Option Desc := none
  remoteCandidates : List String := []
deriving DecidableEq

/-- The mutable fields of the `WebRTCManager` class that the signaling
handlers read or write (`this.peerConnection`, `this.isInitiator`). -/
structure WebRTCManager where
  peerConnection : Option PeerConnection := none
  isInitiator : Bool := false
deriving DecidableEq

/-- A message the manager sends through `this.signaling.send`. -/
structure SigSend where
  type : String
  offer : Option Desc := none
  answer : Option Desc := none
  candidate : Option String := none
deriving DecidableEq

/-- `createPeerConnection()`: installs a fresh `RTCPeerConnection` with no
descriptions set. -/
def createPeerConnection (m : WebRTCManager) : WebRTCManager :=
  { m with peerConnection := some {} }

/-- The `if (!this.peerConnection) this.createPeerConnection()` guard at
the top of `initiateCall` and `handleOffer`: afterwards a peer connection
exists, and it is returned alongside the updated manager. -/
def ensurePeerConnection (m : WebRTCManager) : WebRTCManager × PeerConnection :=
  match m.peerConnection with
  | none => (createPeerConnection m, {})
  | some pc => (m, pc)

/-- `handleOffer(offer)`: lazily create the peer connection, set
`isInitiator = false`, install the incoming offer as remote description,
install the `createAnswer()` result (passed in as the opaque capability's
output) as local description, and send the answer via signaling.  There
is no state or role check of any kind. -/
def handleOffer (m : WebRTCManager) (offer : Desc) (createAnswerResult : Desc) :
    WebRTCManager × List SigSend :=
  let (m, pc) := ensurePeerConnection m
  let m := { m with isInitiator := false }
  let pc := { pc with remoteDescription := some offer }
  let pc := { pc with localDescription := some createAnswerResult }
  ({ m with peerConnection := some pc },
   [{ type := "answer", answer := some createAnswerResult }])

/-- `handleAnswer(answer)`: throws `'Peer connection not created'` (before
touching any state) when `this.peerConnection` is null; otherwise installs
the answer as remote description.  Sends nothing. -/
def handleAnswer (m : WebRTCManager) (answer : Desc) :
    Except String (WebRTCManager × List SigSend) :=
  match m.peerConnection with
  | none => .error "Peer connection not created"
  | some pc =>
      .ok ({ m with peerConnection := some { pc with remoteDescription := some answer } },
        [])

/-- `handleIceCandidate(candidate)`: throws `'Peer connection not
created'` (before touching any state) when `this.peerConnection` is null;
otherwise calls `addIceCandidate` immediately — there is no pending
buffer and no check whether a remote description is set. -/
def handleIceCandidate (m : WebRTCManager) (candidate : String) :
    Except String (WebRTCManager × List SigSend) :=
  match m.peerConnection with
  | none => .error "Peer connection not created"
  | some pc =>
      .ok ({ m with
              peerConnection :=
                some { pc with remoteCandidates := pc.remoteCandidates ++ [candidate] } },
        [])

/-- A decoded signaling message as dispatched by
`handleSignalingMessage`: the switch reads `message.type` and passes the
matching field. -/
inductive SigMsg where
  | offer (offer : Desc)
  | answer (answer : Desc)
  | iceCandidate (candidate : String)
  | other (type : String)
deriving DecidableEq

/-- `handleSignalingMessage(event)`: dispatch on `message.type`; unknown
types only log a warning.  `createAnswerResult` stands for the value the
opaque `createAnswer()` capability would return inside `handleOffer`. -/
def handleSignalingMessage (m : WebRTCManager) (message : SigMsg)
    (createAnswerResult : Desc) : Except String (WebRTCManager × List SigSend) :=
  match message with
  | .offer o => .ok (handleOffer m o createAnswerResult)
  | .answer a => handleAnswer m a
  | .iceCandidate c => handleIceCandidate m c
  | .other _ => .ok (m, [])

/-- The manager object observable after `handleSignalingMessage` runs:
on a thrown error the object keeps its previous state, since in the
source both `throw new Error('Peer connection not created')` statements
are the first statement of their handler, before any assignment. -/
def managerAfter (m : WebRTCManager) (message : SigMsg) (createAnswerResult : Desc) :
    WebRTCManager :=
  match handleSignalingMessage m message createAnswerResult with
  | .ok (m', _) => m'
  | .error _ => m

end Client

/-! ### Helper lemmas about the relay primitives -/

/-- Anything `sendToClient` delivers is the given frame, to the given
target. -/
theorem sendToClient_mem {clients : Signaling.Registry} {c : String}
    {msg : Signaling.Frame} {p : String × Signaling.Frame}
    (hp : p ∈ Signaling.sendToClient clients c msg) : p = (c, msg) := by
  unfold Signaling.sendToClient at hp
  cases h : Signaling.mapGet c clients with
  | none => rw [h] at hp; cases hp
  | some b =>
      cases b
      · rw [h] at hp; cases hp
      · rw [h] at hp; simpa using hp

/-- When the target is present and open, `sendToClient` delivers exactly
the given frame to it. -/
theorem sendToClient_open {clients : Signaling.Registry} {c : String}
    (msg : Signaling.Frame) (h : Signaling.mapGet c clients = some true) :
    Signaling.sendToClient clients c msg = [(c, msg)] := by
  unfold Signaling.sendToClient
  rw [h]

/-- Unfolding `handleMessage` on the targeted-forward path. -/
theorem handleMessage_targeted {clients : Signaling.Registry} {a t : String}
    {f : Signaling.Frame} (h1 : f.type ∈ Signaling.forwardTypes)
    (hto : f.toId = some t) :
    Signaling.handleMessage clients a f =
      Signaling.sendToClient clients t { f with fromId := some a } := by
  unfold Signaling.handleMessage
  rw [if_pos h1, hto]

/-- Unfolding `handleMessage` on the broadcast path. -/
theorem handleMessage_broadcast {clients : Signaling.Registry} {a : String}
    {f : Signaling.Frame} (h1 : f.type ∈ Signaling.forwardTypes)
    (hto : f.toId = none) :
    Signaling.handleMessage clients a f = Signaling.broadcast clients f a := by
  unfold Signaling.handleMessage
  rw [if_pos h1, hto]

/-- Anything `broadcast` delivers carries the frame unchanged, and never
goes to the excluded sender. -/
theorem broadcast_mem {clients : Signaling.Registry} {msg : Signaling.Frame}
    {ex : String} {p : String × Signaling.Frame}
    (hp : p ∈ Signaling.broadcast clients msg ex) :
    p.2 = msg ∧ p.1 ≠ ex ∧ p.1 ∈ clients.map Prod.fst := by
  unfold Signaling.broadcast at hp
  simp only [List.mem_map, List.mem_filter, Bool.and_eq_true, decide_eq_true_eq] at hp
  obtain ⟨c, ⟨hc, hne, _⟩, rfl⟩ := hp
  exact ⟨rfl, hne, List.mem_map_of_mem Prod.fst hc⟩

/-! ### C1 — ICE-candidate buffering -/

/-- C1, counterexample.  The claim says an `ice-candidate` arriving while
the receiving session has no remote description is appended to
`pendingCandidates` and not forwarded immediately.  At this concrete
input the relay forwards the candidate immediately (the relay keeps no
per-pair state at all), and the receiving manager — which has only a
local description, no remote one — applies the candidate immediately via
`addIceCandidate`; no pending buffer exists anywhere. -/
theorem C1_counterexample :
    Signaling.handleMessage [("A", true), ("B", true)] "A"
        { type := "ice-candidate", toId := some "B", body := "cand1" } =
      [("B", { type := "ice-candidate", toId := some "B", fromId := some "A",
               body := "cand1" })] ∧
    Client.handleIceCandidate
        { peerConnection := some { localDescription := some ⟨"localOffer"⟩ } } "cand1" =
      .ok ({ peerConnection := some { localDescription := some ⟨"localOffer"⟩,
                                      remoteCandidates := ["cand1"] } }, []) :=
  ⟨rfl, rfl⟩

/-- C1, amended.  An `ice-candidate` frame with a `to` field naming a
registered, open client is forwarded to that client immediately, with
`from` set to the sender — regardless of any negotiation state; the relay
maintains no `pendingCandidates` buffer and never defers a candidate. -/
theorem C1_candidate_forwarded_immediately (clients : Signaling.Registry)
    (a b : String) (f : Signaling.Frame) (htype : f.type = "ice-candidate")
    (hto : f.toId = some b) (hopen : Signaling.mapGet b clients = some true) :
    Signaling.handleMessage clients a f = [(b, { f with fromId := some a })] := by
  rw [handleMessage_targeted (by rw [htype]; decide) hto]
  exact sendToClient_open _ hopen

/-- C1, witness for the amended theorem at a concrete input. -/
theorem C1_candidate_forwarded_immediately_witness :
    Signaling.mapGet "B" [("A", true), ("B", true)] = some true ∧
    Signaling.handleMessage [("A", true), ("B", true)] "A"
        { type := "ice-candidate", toId := some "B" } =
      [("B", { type := "ice-candidate", toId := some "B", fromId := some "A" })] :=
  ⟨rfl, C1_candidate_forwarded_immediately _ "A" "B" _ rfl rfl rfl⟩

/-! ### C2 — glare resolution -/

/-- C2, counterexample.  The claim says an incoming offer is never
accepted unconditionally while a local offer is pending (the polite side
discards its own offer; the impolite side ignores the incoming one).  At
this concrete input the manager has an in-flight local offer
(`isInitiator = true`, a local description and no remote one), yet
`handleOffer` accepts the incoming offer unconditionally: it installs it
as remote description, overwrites the local description with its answer,
and sends that answer — no polite/impolite role exists in the code. -/
theorem C2_counterexample :
    Client.handleOffer
        { peerConnection := some { localDescription := some ⟨"pendingLocalOffer"⟩ },
          isInitiator := true }
        ⟨"incomingOffer"⟩ ⟨"createdAnswer"⟩ =
      ({ peerConnection := some { localDescription := some ⟨"createdAnswer"⟩,
                                  remoteDescription := some ⟨"incomingOffer"⟩ },
         isInitiator := false },
       [{ type := "answer", answer := some ⟨"createdAnswer"⟩ }]) := rfl

/-- C2, amended.  `handleOffer` accepts every incoming offer
unconditionally, whatever the manager's current state: it installs the
offer as remote description, the created answer as local description,
clears `isInitiator`, and replies with the answer.  No glare handling of
any kind is performed. -/
theorem C2_offer_always_accepted (m : Client.WebRTCManager) (o ca : Client.Desc) :
    ∃ pc : Client.PeerConnection,
      (Client.handleOffer m o ca).1.peerConnection = some pc ∧
      pc.remoteDescription = some o ∧ pc.localDescription = some ca ∧
      (Client.handleOffer m o ca).1.isInitiator = false ∧
      (Client.handleOffer m o ca).2 = [{ type := "answer", answer := some ca }] := by
  obtain ⟨pc?, init⟩ := m
  cases pc? <;> exact ⟨_, rfl, rfl, rfl, rfl, rfl⟩

/-! ### C3 — `from` is relay-assigned -/

/-- C3, counterexample.  The claim says every delivered frame carries
`from` equal to the relay-assigned sender id on both the targeted and the
broadcast path.  On the broadcast path (no `to` field) the relay forwards
the frame *unchanged*: here client `A` sends an offer with a spoofed
`from` of `"EVIL"`, and `B` receives it with `from = "EVIL"`, not `"A"`. -/
theorem C3_counterexample :
    Signaling.handleMessage [("A", true), ("B", true)] "A"
        { type := "offer", fromId := some "EVIL" } =
      [("B", { type := "offer", fromId := some "EVIL" })] ∧
    (some "EVIL" : Option String) ≠ some "A" :=
  ⟨rfl, by decide⟩

/-- C3, amended.  For a forwardable frame (`offer`/`answer`/
`ice-candidate`): on the targeted path every delivery carries the frame
with `from` overwritten to the relay-assigned sender id, but on the
broadcast path every delivery carries the frame unchanged, so a
client-supplied `from` is preserved and spoofable. -/
theorem C3_from_relay_assigned_only_when_targeted (clients : Signaling.Registry)
    (a t : String) (f : Signaling.Frame) (h1 : f.type ∈ Signaling.forwardTypes) :
    (f.toId = some t →
      ∀ p ∈ Signaling.handleMessage clients a f, p = (t, { f with fromId := some a })) ∧
    (f.toId = none →
      ∀ p ∈ Signaling.handleMessage clients a f, p.2 = f) := by
  constructor
  · intro hto p hp
    rw [handleMessage_targeted h1 hto] at hp
    exact sendToClient_mem hp
  · intro hto p hp
    rw [handleMessage_broadcast h1 hto] at hp
    exact (broadcast_mem hp).1

/-- C3, witness for the amended theorem at a concrete input. -/
theorem C3_from_relay_assigned_only_when_targeted_witness :
    ("offer" ∈ Signaling.forwardTypes) ∧
    ∀ p ∈ Signaling.handleMessage [("A", true), ("B", true)] "A"
        { type := "offer", toId := some "B" },
      p = ("B", { type := "offer", toId := some "B", fromId := some "A" }) :=
  ⟨by decide,
   (C3_from_relay_assigned_only_when_targeted [("A", true), ("B", true)] "A" "B"
      { type := "offer", toId := some "B" } (by decide)).1 rfl⟩

/-! ### C4 — malformed input handling -/

/-- C4, counterexample.  The claim says a frame that fails to decode, or
has an unrecognized type, causes an error envelope to be sent back to the
sender.  At this concrete input the handler produces *no* deliveries at
all for either a malformed frame or an unknown type — the catch block and
the switch default only log; the sender receives nothing (the connection
does stay open: the registry is untouched). -/
theorem C4_counterexample :
    Signaling.onWsMessage [("A", true)] "A" .malformed = ([("A", true)], []) ∧
    Signaling.onWsMessage [("A", true)] "A" (.parsed { type := "mystery" }) =
      ([("A", true)], []) :=
  ⟨rfl, rfl⟩

/-- C4, amended.  On decode failure, and on any frame whose type is
outside the switch's recognized set, the relay sends nothing to anyone
(it only logs), drops the frame, and leaves the registry — hence the
sender's connection — untouched. -/
theorem C4_silent_drop (clients : Signaling.Registry) (a : String) :
    Signaling.onWsMessage clients a .malformed = (clients, []) ∧
    ∀ f : Signaling.Frame,
      f.type ∉ ["offer", "answer", "ice-candidate", "join-room", "list-peers"] →
      Signaling.onWsMessage clients a (.parsed f) = (clients, []) := by
  refine ⟨rfl, fun f hf => ?_⟩
  simp only [List.mem_cons, List.not_mem_nil, or_false, not_or] at hf
  obtain ⟨h1, h2, h3, h4, h5⟩ := hf
  simp [Signaling.onWsMessage, Signaling.handleMessage, Signaling.forwardTypes,
    h1, h2, h3, h4, h5]

/-- C4, witness for the amended theorem at a concrete input. -/
theorem C4_silent_drop_witness :
    ("mystery" : String) ∉ ["offer", "answer", "ice-candidate", "join-room", "list-peers"] ∧
    Signaling.onWsMessage [("A", true)] "A" (.parsed { type := "mystery" }) =
      ([("A", true)], []) :=
  ⟨by decide, (C4_silent_drop [("A", true)] "A").2 { type := "mystery" } (by decide)⟩

/-! ### Lemmas about the registry map operations -/

/-- A key not among the stored keys looks up to nothing. -/
theorem mapGet_eq_none_of_not_mem : ∀ {reg : Signaling.Registry} {k : String},
    k ∉ reg.map Prod.fst → Signaling.mapGet k reg = none
  | [], _, _ => rfl
  | (k', v') :: tl, k, h => by
      simp only [List.map_cons, List.mem_cons, not_or] at h
      simp only [Signaling.mapGet]
      rw [if_neg (fun hh => h.1 hh.symm)]
      exact mapGet_eq_none_of_not_mem h.2

/-- Deleting a key keeps a sublist of the stored keys. -/
theorem mapDelete_keys_sublist : ∀ (k : String) (reg : Signaling.Registry),
    ((Signaling.mapDelete k reg).map Prod.fst).Sublist (reg.map Prod.fst)
  | _, [] => List.Sublist.refl _
  | k, (k', v') :: tl => by
      simp only [Signaling.mapDelete]
      by_cases h : k' = k
      · rw [if_pos h]
        simp only [List.map_cons]
        exact (List.Sublist.refl _).cons _
      · rw [if_neg h]
        simp only [List.map_cons]
        exact (mapDelete_keys_sublist k tl).cons₂ _

/-- With duplicate-free keys (the `Map` invariant), a deleted key is gone. -/
theorem mapGet_mapDelete_self : ∀ {reg : Signaling.Registry} (k : String),
    (reg.map Prod.fst).Nodup → Signaling.mapGet k (Signaling.mapDelete k reg) = none
  | [], _, _ => rfl
  | (k', v') :: tl, k, hnd => by
      simp only [List.map_cons, List.nodup_cons] at hnd
      simp only [Signaling.mapDelete]
      by_cases h : k' = k
      · rw [if_pos h]
        exact mapGet_eq_none_of_not_mem (h ▸ hnd.1)
      · rw [if_neg h]
        simp only [Signaling.mapGet]
        rw [if_neg h]
        exact mapGet_mapDelete_self k hnd.2

/-- Deleting one key does not affect lookups of another. -/
theorem mapGet_mapDelete_ne : ∀ {reg : Signaling.Registry} {c k : String}, c ≠ k →
    Signaling.mapGet c (Signaling.mapDelete k reg) = Signaling.mapGet c reg
  | [], _, _, _ => rfl
  | (k', v') :: tl, c, k, hne => by
      simp only [Signaling.mapDelete]
      by_cases h : k' = k
      · rw [if_pos h]
        have hgoal : Signaling.mapGet c ((k', v') :: tl) = Signaling.mapGet c tl := by
          simp only [Signaling.mapGet]
          rw [if_neg (fun hh : k' = c => hne (hh ▸ h))]
        rw [hgoal]
      · rw [if_neg h]
        simp only [Signaling.mapGet]
        by_cases h2 : k' = c
        · rw [if_pos h2, if_pos h2]
        · rw [if_neg h2, if_neg h2]
          exact mapGet_mapDelete_ne hne

/-- Deleting an absent key is a no-op. -/
theorem mapDelete_of_mapGet_none : ∀ {reg : Signaling.Registry} {k : String},
    Signaling.mapGet k reg = none → Signaling.mapDelete k reg = reg
  | [], _, _ => rfl
  | (k', v') :: tl, k, h => by
      simp only [Signaling.mapGet] at h
      by_cases hk : k' = k
      · rw [if_pos hk] at h
        cases h
      · rw [if_neg hk] at h
        simp only [Signaling.mapDelete]
        rw [if_neg hk, mapDelete_of_mapGet_none h]

/-- `broadcast` over a cons cell, as one delivery (or none) plus the rest. -/
theorem broadcast_cons (k : String) (v : Bool) (tl : Signaling.Registry)
    (msg : Signaling.Frame) (ex : String) :
    Signaling.broadcast ((k, v) :: tl) msg ex =
      (if k ≠ ex ∧ v = true then [(k, msg)] else []) ++
        Signaling.broadcast tl msg ex := by
  unfold Signaling.broadcast
  rw [List.filter_cons]
  by_cases h1 : k = ex
  · simp [h1]
  · by_cases h2 : v
    · simp [h1, h2]
    · simp [h1, h2]

/-- `broadcast` never delivers to the excluded sender. -/
theorem broadcast_filter_excluded (reg : Signaling.Registry)
    (msg : Signaling.Frame) (ex : String) :
    (Signaling.broadcast reg msg ex).filter (fun p => p.1 == ex) = [] :=
  List.filter_eq_nil_iff.mpr (fun p hp => by
    simp only [beq_iff_eq]
    exact (broadcast_mem hp).2.1)

/-- With duplicate-free keys, `broadcast` delivers exactly one copy of
the frame to each registered open client other than the sender. -/
theorem broadcast_filter_of_open : ∀ (reg : Signaling.Registry)
    (msg : Signaling.Frame) (ex c : String), (reg.map Prod.fst).Nodup → c ≠ ex →
    Signaling.mapGet c reg = some true →
    (Signaling.broadcast reg msg ex).filter (fun p => p.1 == c) = [(c, msg)]
  | [], msg, ex, c, _, _, hc => by simp [Signaling.mapGet] at hc
  | (k, v) :: tl, msg, ex, c, hnd, hne, hc => by
      simp only [List.map_cons, List.nodup_cons] at hnd
      simp only [Signaling.mapGet] at hc
      rw [broadcast_cons, List.filter_append]
      by_cases hk : k = c
      · subst hk
        rw [if_pos rfl] at hc
        have hv : v = true := by simpa using hc
        have htl : (Signaling.broadcast tl msg ex).filter (fun p => p.1 == k) = [] :=
          List.filter_eq_nil_iff.mpr (fun p hp => by
            simp only [beq_iff_eq]
            intro hpc
            exact hnd.1 (hpc ▸ (broadcast_mem hp).2.2))
        rw [if_pos ⟨hne, hv⟩, htl]
        simp
      · rw [if_neg hk] at hc
        have ih := broadcast_filter_of_open tl msg ex c hnd.2 hne hc
        by_cases hcond : k ≠ ex ∧ v = true
        · rw [if_pos hcond]
          have hkc : ((k, msg).1 == c) = false := by simp [hk]
          simp only [List.filter_cons, hkc, List.filter_nil, List.nil_append,
            Bool.false_eq_true, if_false]
          exact ih
        · rw [if_neg hcond]
          simpa using ih

/-! ### C5 — disconnect notification -/

/-- C5, counterexample.  The claim says that on A's disconnect each peer
with a live session gets exactly one synthesized `bye` and clients with
no session involving A receive nothing.  The server keeps no sessions at
all: at this concrete input (clients A, B, C, no negotiation anywhere),
disconnecting A broadcasts a `peer-disconnected` frame — not a `bye` — to
*both* B and C, although neither has any session with A. -/
theorem C5_counterexample :
    Signaling.onWsClose [("A", true), ("B", true), ("C", true)] "A" =
      ([("B", true), ("C", true)],
        [("B", { type := "peer-disconnected", peerId := some "A" }),
         ("C", { type := "peer-disconnected", peerId := some "A" })]) ∧
    ({ type := "peer-disconnected", peerId := some "A" } : Signaling.Frame).type ≠ "bye" :=
  ⟨rfl, by decide⟩

/-- C5, amended.  When A disconnects the relay removes A from the
registry, A itself receives nothing, and every *other* registered open
client — with or without any negotiation involving A — receives exactly
one `peer-disconnected` frame naming A (there is no session tracking and
no `bye`). -/
theorem C5_disconnect_notifies_everyone (reg : Signaling.Registry) (a : String)
    (hnd : (reg.map Prod.fst).Nodup) :
    Signaling.mapGet a (Signaling.onWsClose reg a).1 = none ∧
    (Signaling.onWsClose reg a).2.filter (fun p => p.1 == a) = [] ∧
    ∀ c, c ≠ a → Signaling.mapGet c reg = some true →
      (Signaling.onWsClose reg a).2.filter (fun p => p.1 == c) =
        [(c, { type := "peer-disconnected", peerId := some a })] := by
  refine ⟨mapGet_mapDelete_self a hnd, broadcast_filter_excluded _ _ _, ?_⟩
  intro c hca hcget
  have h1 : ((Signaling.mapDelete a reg).map Prod.fst).Nodup :=
    hnd.sublist (mapDelete_keys_sublist a reg)
  have h2 : Signaling.mapGet c (Signaling.mapDelete a reg) = some true := by
    rw [mapGet_mapDelete_ne hca]
    exact hcget
  exact broadcast_filter_of_open _ _ _ _ h1 hca h2

/-- C5, witness for the amended theorem at a concrete input. -/
theorem C5_disconnect_notifies_everyone_witness :
    (([("A", true), ("B", true)] : Signaling.Registry).map Prod.fst).Nodup ∧
    ("B" : String) ≠ "A" ∧
    Signaling.mapGet "B" ([("A", true), ("B", true)] : Signaling.Registry) = some true ∧
    (Signaling.onWsClose [("A", true), ("B", true)] "A").2.filter (fun p => p.1 == "B") =
      [("B", { type := "peer-disconnected", peerId := some "A" })] :=
  ⟨by decide, by decide, rfl,
   (C5_disconnect_notifies_everyone [("A", true), ("B", true)] "A" (by decide)).2.2
     "B" (by decide) rfl⟩

/-! ### C6 — unknown forwarding target -/

/-- C6, counterexample.  The claim says a forward to an unregistered
target causes an `error` envelope with reason `unknown-target` back to
the sender.  At this concrete input (A forwards an offer to the absent
id `Z`) the relay delivers nothing at all — `sendToClient` only logs a
console warning, and in particular the sender receives no error frame. -/
theorem C6_counterexample :
    Signaling.handleMessage [("A", true)] "A"
      { type := "offer", toId := some "Z", body := "sdp" } = [] := rfl

/-- C6, amended.  A forwardable frame addressed to a client id that is
not registered, or whose connection is not open, is dropped silently:
nothing is delivered to anyone (only a console warning), the sender gets
no error envelope, and there is no retry. -/
theorem C6_unknown_target_silent (clients : Signaling.Registry) (a t : String)
    (f : Signaling.Frame) (h1 : f.type ∈ Signaling.forwardTypes)
    (hto : f.toId = some t) (hmiss : Signaling.mapGet t clients ≠ some true) :
    Signaling.handleMessage clients a f = [] := by
  rw [handleMessage_targeted h1 hto]
  unfold Signaling.sendToClient
  cases h : Signaling.mapGet t clients with
  | none => rfl
  | some b =>
      cases b
      · rfl
      · exact absurd h hmiss

/-- C6, witness for the amended theorem at a concrete input. -/
theorem C6_unknown_target_silent_witness :
    ("offer" ∈ Signaling.forwardTypes) ∧
    Signaling.mapGet "Z" ([("A", true)] : Signaling.Registry) ≠ some true ∧
    Signaling.handleMessage [("A", true)] "A"
      { type := "offer", toId := some "Z", body := "sdp" } = [] :=
  ⟨by decide, by decide,
   C6_unknown_target_silent [("A", true)] "A" "Z" _ (by decide) rfl (by decide)⟩

/-! ### C7 — per-sender ordering -/

/-- Deliveries generated by a filtered subtrace form a sublist of the
deliveries of the full trace. -/
theorem flatMap_filter_sublist {α β : Type} (l : List α) (q : α → Bool)
    (f : α → List β) : ((l.filter q).flatMap f).Sublist (l.flatMap f) := by
  induction l with
  | nil => exact List.Sublist.refl _
  | cons hd tl ih =>
      rw [List.filter_cons]
      by_cases h : q hd = true
      · rw [if_pos h, List.flatMap_cons, List.flatMap_cons]
        exact ih.append_left (f hd)
      · rw [if_neg h, List.flatMap_cons]
        exact ih.trans (List.sublist_append_right _ _)

/-- C7, confirmed.  Over any trace of inbound frames processed in arrival
order, the deliveries to any recipient `r` that are generated by client
`c`'s frames — i.e. the deliveries of the subtrace of `c`'s frames, in
the order `c` sent them — appear in the full delivery stream as a
sublist, hence in the same relative order.  Frames of distinct senders
get no such guarantee (the trace interleaving is arbitrary). -/
theorem C7_per_sender_order (clients : Signaling.Registry)
    (events : List (String × Signaling.Frame)) (c r : String) :
    ((Signaling.relayRun clients (events.filter (fun e => e.1 == c))).filter
        (fun p => p.1 == r)).Sublist
      ((Signaling.relayRun clients events).filter (fun p => p.1 == r)) :=
  (flatMap_filter_sublist events _ _).filter _

/-! ### C8 — uniqueness of registered client ids -/

/-- C8, code bug.  `generateClientId` draws `Math.random()` four times
with no uniqueness check, although its own doc comment reads "Generate
unique client ID" and `clients.set` silently overwrites on collision.
When the draws repeat (possible, since `Math.random` has finitely many
outputs), two connections receive the *same* id and the second
registration overwrites the first: after two `onConnection` calls with
equal random draws the two returned ids are equal and the registry holds
a single entry. -/
theorem C8_random_id_collision :
    (Signaling.onConnection [] "0.k9mdq34xb2c5a" "0.k9mdq34xb2c5a").2.1 =
      (Signaling.onConnection
          (Signaling.onConnection [] "0.k9mdq34xb2c5a" "0.k9mdq34xb2c5a").1
          "0.k9mdq34xb2c5a" "0.k9mdq34xb2c5a").2.1 ∧
    (Signaling.onConnection
        (Signaling.onConnection [] "0.k9mdq34xb2c5a" "0.k9mdq34xb2c5a").1
        "0.k9mdq34xb2c5a" "0.k9mdq34xb2c5a").1.length = 1 :=
  ⟨rfl, rfl⟩

/-! ### C9 — idempotent unregister -/

/-- C9, confirmed.  On registries with duplicate-free keys (the invariant
of a JavaScript `Map`), unregistering a client id twice leaves the
registry exactly as unregistering it once, and unregistering an id that
is not present is a no-op producing no error (`clients.delete` of an
absent key does nothing). -/
theorem C9_unregister_idempotent (reg : Signaling.Registry) (k : String)
    (hnd : (reg.map Prod.fst).Nodup) :
    Signaling.mapDelete k (Signaling.mapDelete k reg) = Signaling.mapDelete k reg ∧
    (Signaling.mapGet k reg = none → Signaling.mapDelete k reg = reg) :=
  ⟨mapDelete_of_mapGet_none (mapGet_mapDelete_self k hnd),
   fun h => mapDelete_of_mapGet_none h⟩

/-- C9, witness at a concrete input. -/
theorem C9_unregister_idempotent_witness :
    (([("A", true)] : Signaling.Registry).map Prod.fst).Nodup ∧
    Signaling.mapDelete "A" (Signaling.mapDelete "A" [("A", true)]) =
      Signaling.mapDelete "A" [("A", true)] ∧
    Signaling.mapGet "B" ([("A", true)] : Signaling.Registry) = none ∧
    Signaling.mapDelete "B" [("A", true)] = [("A", true)] :=
  ⟨by decide,
   (C9_unregister_idempotent [("A", true)] "A" (by decide)).1,
   rfl,
   (C9_unregister_idempotent [("A", true)] "B" (by decide)).2 rfl⟩

/-! ### C10 — out-of-order client-side messages -/

/-- C10, confirmed.  When the manager has no peer connection yet, an
incoming `answer` or `ice-candidate` signaling message throws
`'Peer connection not created'` and the manager's observable state is
unchanged (the throw precedes any assignment), whereas an incoming
`offer` lazily creates the peer connection and succeeds.  Out-of-order
answers and candidates are thus rejected, never buffered. -/
theorem C10_reject_without_peer_connection (m : Client.WebRTCManager)
    (h : m.peerConnection = none) (a : Client.Desc) (cand : String)
    (o ca : Client.Desc) :
    Client.handleSignalingMessage m (.answer a) ca =
      .error "Peer connection not created" ∧
    Client.managerAfter m (.answer a) ca = m ∧
    Client.handleSignalingMessage m (.iceCandidate cand) ca =
      .error "Peer connection not created" ∧
    Client.managerAfter m (.iceCandidate cand) ca = m ∧
    ∃ m' outs, Client.handleSignalingMessage m (.offer o) ca = .ok (m', outs) ∧
      m'.peerConnection ≠ none := by
  obtain ⟨pc?, init⟩ := m
  cases pc? with
  | some pc => exact Option.noConfusion h
  | none => exact ⟨rfl, rfl, rfl, rfl, _, _, rfl, Option.some_ne_none _⟩

/-- C10, witness at a concrete input (a fresh manager). -/
theorem C10_reject_without_peer_connection_witness :
    ({} : Client.WebRTCManager).peerConnection = none ∧
    Client.handleSignalingMessage {} (.answer ⟨"sdpAnswer"⟩) ⟨"created"⟩ =
      .error "Peer connection not created" :=
  ⟨rfl,
   (C10_reject_without_peer_connection {} rfl ⟨"sdpAnswer"⟩ "cand" ⟨"sdpOffer"⟩
      ⟨"created"⟩).1⟩
